import Mathlib

/-!
SVG streaming of geometries (`ggl/io/svg/write_svg.hpp`)

A shallow embedding of the SVG encoders of the Generic Geometry Library as
shipped with merkaartor.  An output stream is modelled by the text written to
it (a `String`); every `apply` returns the text it inserts.  Loops over ranges
are folds over lists that thread the stream together with the `first` flag.
A second layer (`ostream`, `svg_point.apply`, ...) threads a stream with its
format state (field width, fill character, adjustment) through the same code;
the two layers agree on a stream of field width 0.
-/

namespace ggl

/-! ## Data model -/

/-- A point exposing the two coordinates `x()` and `y()`. -/
structure Point (α : Type) where
  x : α
  y : α
deriving DecidableEq, Repr

/-- A box: `min_corner` and `max_corner`. -/
structure Box (α : Type) where
  min_corner : Point α
  max_corner : Point α
deriving DecidableEq, Repr

/-- A polygon: `exterior_ring` and `interior_rings`. -/
structure Polygon (α : Type) where
  exterior_ring : List (Point α)
  interior_rings : List (List (Point α))
deriving DecidableEq, Repr

/-- Stream insertion `os << c` of a coordinate value. -/
class Streamable (α : Type) where
  put : α → String

/-- Insertion of an `int` writes its decimal digits, with a leading `-` when negative. -/
instance : Streamable Int where
  put := toString

/-- Wrap-around of a mathematical integer into the 32-bit two's complement range of `int`. -/
def wrap32 (i : Int) : Int := (i + 2147483648) % 4294967296 - 2147483648

/-- The `int` range. -/
def InIntRange (i : Int) : Prop := -2147483648 ≤ i ∧ i ≤ 2147483647

instance (i : Int) : Decidable (InIntRange i) := by
  unfold InIntRange; infer_instance

/-- The arithmetic `svg_box` performs on a coordinate value: initialisation of an `int`
from it, `c - x` for an `int` `x` (in the common type of the two), and `std::abs`. -/
class BoxArith (α : Type) where
  toInt : α → Int
  subInt : α → Int → α
  abs : α → α

/-- Coordinates of type `int`, held in an `Int`: initialising an `int` local keeps the low
32 bits (the value itself when it is in the `int` range), subtraction and `std::abs` wrap
modulo `2^32`. -/
instance : BoxArith Int where
  toInt := fun c => wrap32 c
  subInt := fun c x => wrap32 (c - x)
  abs := fun c => wrap32 |c|

/-- Conversion of a fractional value to `int` discards the fractional part
(truncation toward zero). -/
def truncToInt (q : Rat) : Int := if 0 ≤ q then ⌊q⌋ else ⌈q⌉

/-- Fractional coordinates, taken as exact rationals: `c - x` and `std::abs` are exact,
initialising an `int` truncates. -/
instance : BoxArith Rat where
  toInt := truncToInt
  subInt := fun c x => c - (x : Rat)
  abs := fun c => |c|

/-! ## Encoders -/

/-- Text written by `svg_point::apply`. -/
def svg_point {α : Type} [Streamable α] (p : Point α) (style : String) (size : Int) : String :=
  "<circle cx=\"" ++ Streamable.put p.x
    ++ "\" cy=\"" ++ Streamable.put p.y
    ++ "\" r=\"" ++ toString (if size < 0 then 5 else size)
    ++ "\" style=\"" ++ style ++ "\"/>"

/-- The four `int` locals of `svg_box::apply`. -/
structure BoxLocals where
  x : Int
  y : Int
  width : Int
  height : Int
deriving DecidableEq, Repr

/-- The initialisation of `x`, `y`, `width`, `height` in `svg_box::apply`. -/
def svg_box_locals {α : Type} [BoxArith α] (box : Box α) : BoxLocals :=
  let x := BoxArith.toInt box.min_corner.x
  let y := BoxArith.toInt box.min_corner.y
  let width := BoxArith.toInt (BoxArith.abs (BoxArith.subInt box.max_corner.x x))
  let height := BoxArith.toInt (BoxArith.abs (BoxArith.subInt box.max_corner.y y))
  { x := x, y := y, width := width, height := height }

/-- Text written by `svg_box::apply`. -/
def svg_box {α : Type} [BoxArith α] (box : Box α) (style : String) (_size : Int) : String :=
  let l := svg_box_locals box
  "<rect x=\"" ++ toString l.x ++ "\" y=\"" ++ toString l.y
    ++ "\" width=\"" ++ toString l.width ++ "\" height=\"" ++ toString l.height
    ++ "\" style=\"" ++ style ++ "\"/>"

/-- The policy of `svg_range`: the element name and the style suffix. -/
structure Policy where
  elem_prefix : String
  style : String

/-- The policy `prefix_linestring`. -/
def prefix_linestring : Policy := { elem_prefix := "polyline", style := ";fill:none" }

/-- The policy `prefix_ring`. -/
def prefix_ring : Policy := { elem_prefix := "polygon", style := "" }

/-- One iteration of the loop of `svg_range::apply` on the state `(os, first)`. -/
def svg_range_step {α : Type} [Streamable α] (st : String × Bool) (p : Point α) :
    String × Bool :=
  (st.1 ++ (if st.2 then "" else " ") ++ Streamable.put p.x ++ "," ++ Streamable.put p.y, false)

/-- Text written by `svg_range::apply`. -/
def svg_range {α : Type} [Streamable α] (policy : Policy) (range : List (Point α))
    (style : String) (_size : Int) : String :=
  let first := true
  let os := "<" ++ policy.elem_prefix ++ " points=\""
  let st := range.foldl svg_range_step (os, first)
  st.1 ++ "\" style=\"" ++ style ++ policy.style ++ "\"/>"

/-- One iteration of a point loop of `svg_poly::apply` on the state `(os, first)`. -/
def svg_poly_step {α : Type} [Streamable α] (st : String × Bool) (p : Point α) :
    String × Bool :=
  (st.1 ++ (if st.2 then "M" else " L") ++ " " ++ Streamable.put p.x ++ ","
    ++ Streamable.put p.y, false)

/-- One iteration of the loop over the interior rings of `svg_poly::apply`:
`first = true`, then the point loop. -/
def svg_poly_ring_step {α : Type} [Streamable α] (st : String × Bool) (ring : List (Point α)) :
    String × Bool :=
  ring.foldl svg_poly_step (st.1, true)

/-- Text written by `svg_poly::apply`. -/
def svg_poly {α : Type} [Streamable α] (polygon : Polygon α) (style : String) (_size : Int) :
    String :=
  let first := true
  let os := "<g fill-rule=\"evenodd\"><path d=\""
  let st := polygon.exterior_ring.foldl svg_poly_step (os, first)
  let st := polygon.interior_rings.foldl svg_poly_ring_step st
  st.1 ++ " z \" style=\"" ++ style ++ "\"/></g>"

/-! ## Reference descriptions of the emitted text -/

/-- The text `X,Y` of one point. -/
def pair_text {α : Type} [Streamable α] (p : Point α) : String :=
  Streamable.put p.x ++ "," ++ Streamable.put p.y

/-- Every point of the sequence as `sep` followed by its `X,Y`. -/
def each_with {α : Type} [Streamable α] (sep : String) : List (Point α) → String
  | [] => ""
  | p :: ps => sep ++ pair_text p ++ each_with sep ps

/-- The pairs `X,Y` of a point sequence joined by single spaces. -/
def points_text {α : Type} [Streamable α] (range : List (Point α)) : String :=
  " ".intercalate (range.map pair_text)

/-- The subpath of one ring: nothing for an empty ring, else `M x,y` for the first point
followed by ` L x,y` for each further point. -/
def subpath {α : Type} [Streamable α] : List (Point α) → String
  | [] => ""
  | p :: ps => "M " ++ pair_text p ++ each_with " L " ps

/-- The subpaths of a list of rings written one after the other, nothing in between. -/
def subpaths {α : Type} [Streamable α] : List (List (Point α)) → String
  | [] => ""
  | r :: rs => subpath r ++ subpaths rs

/-- Characters of a number in text form: decimal digits, signs, decimal point, exponent mark. -/
def numeric_char (c : Char) : Bool :=
  c.isDigit || c == '-' || c == '+' || c == '.' || c == 'e'

/-- Coordinate types whose inserted text is made of numeric characters only. -/
class NumericText (α : Type) [Streamable α] : Prop where
  numeric : ∀ (a : α) (c : Char), c ∈ (Streamable.put a).data → numeric_char c = true

/-- The value of the `d` attribute of the text written for a polygon: what follows the
opening `<g fill-rule="evenodd"><path d="` up to the next double quote. -/
def d_attribute (out : String) : String :=
  ⟨(out.data.drop "<g fill-rule=\"evenodd\"><path d=\"".length).takeWhile (fun c => c != '"')⟩

/-- Number of positions of `text` at which `pat` occurs. -/
def occurrences (pat : List Char) : List Char → Nat
  | [] => 0
  | c :: cs => (if pat.isPrefixOf (c :: cs) then 1 else 0) + occurrences pat cs

/-- The polygon of the specification's example: a square with one square hole. -/
def example_polygon : Polygon Int :=
  { exterior_ring := [⟨0, 0⟩, ⟨4, 0⟩, ⟨4, 4⟩, ⟨0, 4⟩],
    interior_rings := [[⟨1, 1⟩, ⟨2, 1⟩, ⟨2, 2⟩, ⟨1, 2⟩]] }

/-- The box of the specification's fractional example: min (0.5, 0.5), max (1.75, 2.5). -/
def example_fraction_box : Box Rat :=
  { min_corner := ⟨1 / 2, 1 / 2⟩, max_corner := ⟨7 / 4, 5 / 2⟩ }

/-! ## Dispatch and stream manipulator -/

/-- The geometry tags the dispatcher is specialised for. -/
inductive geometry_tag where
  | point_tag
  | box_tag
  | linestring_tag
  | ring_tag
  | polygon_tag
deriving DecidableEq, Repr

/-- The geometry types carrying each tag: a linestring and a ring are both ranges of points. -/
def geometry_of (α : Type) : geometry_tag → Type
  | .point_tag => Point α
  | .box_tag => Box α
  | .linestring_tag => List (Point α)
  | .ring_tag => List (Point α)
  | .polygon_tag => Polygon α

namespace dispatch

/-- Text written by `dispatch::svg<Tag, Geometry>::apply`: each specialisation inherits the
`apply` of one encoder. -/
def svg {α : Type} [Streamable α] [BoxArith α] :
    (tag : geometry_tag) → geometry_of α tag → String → Int → String
  | .point_tag, g, style, size => svg_point g style size
  | .box_tag, g, style, size => svg_box g style size
  | .linestring_tag, g, style, size => svg_range prefix_linestring g style size
  | .ring_tag, g, style, size => svg_range prefix_ring g style size
  | .polygon_tag, g, style, size => svg_poly g style size

end dispatch

/-- An output stream: the text written so far and whether it has all been flushed. -/
structure Sink where
  text : String
  flushed : Bool
deriving DecidableEq, Repr

/-- Insertion of text into a stream: the text is appended and is not yet flushed. -/
def Sink.write (os : Sink) (s : String) : Sink :=
  { text := os.text ++ s, flushed := false }

/-- The call `os.flush()`. -/
def Sink.flush (os : Sink) : Sink :=
  { os with flushed := true }

/-- The class `svg_manipulator<G>`, with the tag of `G`. -/
structure svg_manipulator (α : Type) where
  tag : geometry_tag
  m_geometry : geometry_of α tag
  m_style : String
  m_size : Int

/-- The friend `operator<<` of `svg_manipulator`: dispatch on the tag, then flush. -/
def svg_manipulator.insert {α : Type} [Streamable α] [BoxArith α] (os : Sink)
    (m : svg_manipulator α) : Sink :=
  let os := os.write (dispatch.svg m.tag m.m_geometry m.m_style m.m_size)
  os.flush

/-- The object generator `svg(t, style, size = -1)`. -/
def svg {α : Type} (tag : geometry_tag) (t : geometry_of α tag) (style : String)
    (size : Int := -1) : svg_manipulator α :=
  { tag := tag, m_geometry := t, m_style := style, m_size := size }

/-- The element name of a written fragment: what stands between the opening `<` and the
first space. -/
def element_name (out : String) : String :=
  ⟨(out.data.drop 1).takeWhile (fun c => c != ' ')⟩

/-- The command letters of a path data text, in order: its `M`, `L` and `z` characters. -/
def command_letters (d : String) : List Char :=
  d.data.filter (fun c => c == 'M' || c == 'L' || c == 'z')

/-- The command letters expected of one ring: nothing for an empty ring, else one `M` for
the first point and one `L` for each remaining point. -/
def ring_commands {β : Type} : List β → List Char
  | [] => []
  | _ :: ps => 'M' :: List.replicate ps.length 'L'

/-- The box with min corner (0, 0) and max corner (-2147483648, 0). -/
def example_int_min_box : Box Int :=
  { min_corner := ⟨0, 0⟩, max_corner := ⟨-2147483648, 0⟩ }

/-- The ring of the specification's example: the unit square. -/
def example_ring : List (Point Int) := [⟨0, 0⟩, ⟨1, 0⟩, ⟨1, 1⟩, ⟨0, 1⟩]

/-- The number a list of decimal digit characters stands for, continuing from `acc`. -/
def digits_value (acc : Nat) (l : List Char) : Nat :=
  l.foldl (fun a c => 10 * a + (c.toNat - 48)) acc

/-! ## Streams with format state -/

/-- An output stream together with the format state that formatted insertion reads: the
field width `width()`, the fill character `fill()` and whether the adjustment is `left`. -/
structure ostream where
  text : String
  flushed : Bool
  width : Nat
  fill : Char
  left : Bool
deriving DecidableEq, Repr

/-- The characters a formatted insertion of `s` writes: `s` padded with the fill character
up to the field width, after `s` for left adjustment and before it otherwise. -/
def ostream.padded (os : ostream) (s : String) : String :=
  let pad : String := ⟨List.replicate (os.width - s.utf8ByteSize) os.fill⟩
  if os.left then s ++ pad else pad ++ s

/-- Formatted insertion `os << s` of a literal, a string or the text of a number: the padded
text is written and the field width is reset to 0. -/
def ostream.insert (os : ostream) (s : String) : ostream :=
  { os with text := os.text ++ os.padded s, flushed := false, width := 0 }

/-- The call `os.flush()` on a stream with format state. -/
def ostream.flush (os : ostream) : ostream :=
  { os with flushed := true }

/-- The method `svg_point::apply` on a stream with format state. -/
def svg_point.apply {α : Type} [Streamable α] (os : ostream) (p : Point α) (style : String)
    (size : Int) : ostream :=
  os.insert "<circle cx=\"" |>.insert (Streamable.put p.x)
    |>.insert "\" cy=\"" |>.insert (Streamable.put p.y)
    |>.insert "\" r=\"" |>.insert (toString (if size < 0 then 5 else size))
    |>.insert "\" style=\"" |>.insert style |>.insert "\"/>"

/-- The method `svg_box::apply` on a stream with format state. -/
def svg_box.apply {α : Type} [BoxArith α] (os : ostream) (box : Box α) (style : String)
    (_size : Int) : ostream :=
  let l := svg_box_locals box
  os.insert "<rect x=\"" |>.insert (toString l.x) |>.insert "\" y=\"" |>.insert (toString l.y)
    |>.insert "\" width=\"" |>.insert (toString l.width)
    |>.insert "\" height=\"" |>.insert (toString l.height)
    |>.insert "\" style=\"" |>.insert style |>.insert "\"/>"

/-- One iteration of the loop of `svg_range::apply` on the state `(os, first)`, the stream
carrying its format state. -/
def svg_range.step {α : Type} [Streamable α] (st : ostream × Bool) (p : Point α) :
    ostream × Bool :=
  (st.1.insert (if st.2 then "" else " ") |>.insert (Streamable.put p.x) |>.insert ","
    |>.insert (Streamable.put p.y), false)

/-- The method `svg_range::apply` on a stream with format state. -/
def svg_range.apply {α : Type} [Streamable α] (policy : Policy) (os : ostream)
    (range : List (Point α)) (style : String) (_size : Int) : ostream :=
  let first := true
  let os := os.insert "<" |>.insert policy.elem_prefix |>.insert " points=\""
  let st := range.foldl svg_range.step (os, first)
  st.1.insert "\" style=\"" |>.insert style |>.insert policy.style |>.insert "\"/>"

/-- One iteration of a point loop of `svg_poly::apply` on the state `(os, first)`, the
stream carrying its format state. -/
def svg_poly.step {α : Type} [Streamable α] (st : ostream × Bool) (p : Point α) :
    ostream × Bool :=
  (st.1.insert (if st.2 then "M" else " L") |>.insert " " |>.insert (Streamable.put p.x)
    |>.insert "," |>.insert (Streamable.put p.y), false)

/-- One iteration of the loop over the interior rings of `svg_poly::apply` on a stream with
format state: `first = true`, then the point loop. -/
def svg_poly.ring_step {α : Type} [Streamable α] (st : ostream × Bool)
    (ring : List (Point α)) : ostream × Bool :=
  ring.foldl svg_poly.step (st.1, true)

/-- The method `svg_poly::apply` on a stream with format state. -/
def svg_poly.apply {α : Type} [Streamable α] (os : ostream) (polygon : Polygon α)
    (style : String) (_size : Int) : ostream :=
  let first := true
  let os := os.insert "<g fill-rule=\"evenodd\"><path d=\""
  let st := polygon.exterior_ring.foldl svg_poly.step (os, first)
  let st := polygon.interior_rings.foldl svg_poly.ring_step st
  st.1.insert " z \" style=\"" |>.insert style |>.insert "\"/></g>"

/-- The method `dispatch::svg<Tag, Geometry>::apply` on a stream with format state. -/
def dispatch.svg.apply {α : Type} [Streamable α] [BoxArith α] :
    (tag : geometry_tag) → ostream → geometry_of α tag → String → Int → ostream
  | .point_tag, os, g, style, size => svg_point.apply os g style size
  | .box_tag, os, g, style, size => svg_box.apply os g style size
  | .linestring_tag, os, g, style, size => svg_range.apply prefix_linestring os g style size
  | .ring_tag, os, g, style, size => svg_range.apply prefix_ring os g style size
  | .polygon_tag, os, g, style, size => svg_poly.apply os g style size

/-- The friend `operator<<` of `svg_manipulator` on a stream with format state: dispatch on
the tag, then flush. -/
def svg_manipulator.stream_insert {α : Type} [Streamable α] [BoxArith α] (os : ostream)
    (m : svg_manipulator α) : ostream :=
  let os := dispatch.svg.apply m.tag os m.m_geometry m.m_style m.m_size
  os.flush

/-- The first literal each encoder inserts. -/
def first_literal : geometry_tag → String
  | .point_tag => "<circle cx=\""
  | .box_tag => "<rect x=\""
  | .linestring_tag => "<"
  | .ring_tag => "<"
  | .polygon_tag => "<g fill-rule=\"evenodd\"><path d=\""

/-- The stream with `s` added to its text and nothing else changed. -/
def ostream.append (os : ostream) (s : String) : ostream :=
  { os with text := os.text ++ s }

end ggl

/-! ## The discardable dialog (`Utils/MDiscardableDialog.cpp`) -/

/-- A `QSettings` store: keys with the integer values saved under them. -/
abbrev QSettings := List (String × Int)

/-- The call `Sets->value(key, defaultValue).toInt()`. -/
def QSettings.value (s : QSettings) (key : String) (defaultValue : Int) : Int :=
  (s.lookup key).getD defaultValue

/-- The call `Sets->setValue(key, v)`. -/
def QSettings.setValue (s : QSettings) (key : String) (v : Int) : QSettings :=
  (key, v) :: s.filter (fun e => e.1 != key)

/-- The application state a dialog reads and writes: the global `g_Merk_Portable`, the
default settings store and the store of `merkaartor.ini`. -/
structure AppState where
  g_Merk_Portable : Bool
  native_settings : QSettings
  ini_settings : QSettings
deriving DecidableEq, Repr

/-- The store selected by `if (!g_Merk_Portable) ... else ...`. -/
def AppState.Sets (app : AppState) : QSettings :=
  if !app.g_Merk_Portable then app.native_settings else app.ini_settings

/-- Writing back the selected store. -/
def AppState.withSets (app : AppState) (s : QSettings) : AppState :=
  if !app.g_Merk_Portable then { app with native_settings := s }
  else { app with ini_settings := s }

/-- The key of a dialog title inside the group `DiscardableDialogs`. -/
def discardable_key (title : String) : String := "DiscardableDialogs/" ++ title

/-- The members of `MDiscardableDialog` that `check` uses. -/
structure MDiscardableDialog where
  Title : String
  DiscardableRole : Int
deriving DecidableEq, Repr

/-- What happens when the dialog is shown: the value `exec()` returns and the state of the
check box `theDSA` afterwards. -/
structure DialogRun where
  tmpRet : Int
  dsaChecked : Bool
deriving DecidableEq, Repr

/-- The outcome of one call of `check`: the returned value, the dialog and application
state after it, and whether `exec()` was called. -/
structure CheckResult where
  ret : Int
  dialog : MDiscardableDialog
  app : AppState
  shown : Bool
deriving DecidableEq, Repr

/-- The constructor `MDiscardableDialog(parent, title)`: the role is read from the
settings, `-1` when there is none. -/
def MDiscardableDialog.create (app : AppState) (title : String) : MDiscardableDialog :=
  { Title := title, DiscardableRole := app.Sets.value (discardable_key title) (-1) }

/-- The method `MDiscardableDialog::check`. -/
def MDiscardableDialog.check (d : MDiscardableDialog) (app : AppState) (run : DialogRun) :
    CheckResult :=
  if d.DiscardableRole != -1 then
    { ret := d.DiscardableRole, dialog := d, app := app, shown := false }
  else
    let tmpRet := run.tmpRet
    if run.dsaChecked then
      let d2 := { d with DiscardableRole := tmpRet }
      let Sets := app.Sets.setValue (discardable_key d2.Title) d2.DiscardableRole
      { ret := tmpRet, dialog := d2, app := app.withSets Sets, shown := true }
    else
      { ret := tmpRet, dialog := d, app := app, shown := true }

/-- A sequence of calls of `check` on one dialog, each with what would happen if the dialog
were shown; the returned value and the shown flag of every call. -/
def MDiscardableDialog.checks (d : MDiscardableDialog) (app : AppState) :
    List DialogRun → List (Int × Bool)
  | [] => []
  | run :: runs =>
    let r := d.check app run
    (r.ret, r.shown) :: MDiscardableDialog.checks r.dialog r.app runs

namespace ggl

/-! ## The loops -/

theorem intercalate_go_data (sep acc : String) (l : List String) :
    (String.intercalate.go acc sep l).data
      = acc.data ++ (l.map (fun a => sep.data ++ a.data)).flatten := by
  induction l generalizing acc with
  | nil => simp [String.intercalate.go]
  | cons a l ih => simp [String.intercalate.go, ih]

theorem each_with_data {α : Type} [Streamable α] (sep : String) (l : List (Point α)) :
    (each_with sep l).data
      = (l.map (fun p => sep.data ++ (pair_text p).data)).flatten := by
  induction l with
  | nil => rfl
  | cons p ps ih => simp [each_with, ih]

theorem points_text_cons {α : Type} [Streamable α] (p : Point α) (ps : List (Point α)) :
    points_text (p :: ps) = pair_text p ++ each_with " " ps := by
  apply String.ext
  simp [points_text, String.intercalate, intercalate_go_data, each_with_data, List.map_map,
    Function.comp_def]

theorem svg_range_loop_rest {α : Type} [Streamable α] (os : String) (l : List (Point α)) :
    l.foldl svg_range_step (os, false) = (os ++ each_with " " l, false) := by
  induction l generalizing os with
  | nil => simp [each_with]
  | cons p ps ih =>
    simp [List.foldl_cons, svg_range_step, ih, each_with, pair_text, String.append_assoc]

theorem svg_range_loop {α : Type} [Streamable α] (os : String) (l : List (Point α)) :
    (l.foldl svg_range_step (os, true)).1 = os ++ points_text l := by
  cases l with
  | nil => simp [points_text, String.intercalate]
  | cons p ps =>
    simp [List.foldl_cons, svg_range_step, svg_range_loop_rest, points_text_cons, pair_text,
      String.append_assoc]

theorem svg_poly_loop_rest {α : Type} [Streamable α] (os : String) (l : List (Point α)) :
    l.foldl svg_poly_step (os, false) = (os ++ each_with " L " l, false) := by
  induction l generalizing os with
  | nil => simp [each_with]
  | cons p ps ih =>
    simp only [List.foldl_cons, svg_poly_step, ih, each_with, pair_text]
    congr 1
    apply String.ext
    simp [String.data_append]

theorem svg_poly_loop {α : Type} [Streamable α] (os : String) (l : List (Point α)) :
    (l.foldl svg_poly_step (os, true)).1 = os ++ subpath l := by
  cases l with
  | nil => simp [subpath]
  | cons p ps =>
    simp only [List.foldl_cons, svg_poly_step, svg_poly_loop_rest, subpath, pair_text]
    apply String.ext
    simp [String.data_append]

theorem svg_poly_rings_loop {α : Type} [Streamable α] (st : String × Bool)
    (rs : List (List (Point α))) :
    (rs.foldl svg_poly_ring_step st).1 = st.1 ++ subpaths rs := by
  induction rs generalizing st with
  | nil => simp [subpaths]
  | cons r rs ih =>
    simp [List.foldl_cons, ih, svg_poly_ring_step, svg_poly_loop, subpaths, String.append_assoc]

/-- The whole text written by `svg_range::apply`. -/
theorem svg_range_eq {α : Type} [Streamable α] (policy : Policy) (range : List (Point α))
    (style : String) (size : Int) :
    svg_range policy range style size
      = "<" ++ policy.elem_prefix ++ " points=\"" ++ points_text range
        ++ "\" style=\"" ++ style ++ policy.style ++ "\"/>" := by
  simp [svg_range, svg_range_loop]

/-- The whole text written by `svg_poly::apply`. -/
theorem svg_poly_eq {α : Type} [Streamable α] (polygon : Polygon α) (style : String)
    (size : Int) :
    svg_poly polygon style size
      = "<g fill-rule=\"evenodd\"><path d=\"" ++ subpath polygon.exterior_ring
        ++ subpaths polygon.interior_rings ++ " z \" style=\"" ++ style ++ "\"/></g>" := by
  simp only [svg_poly, svg_poly_rings_loop]
  cases h : polygon.exterior_ring with
  | nil => simp [subpath]
  | cons p ps =>
    simp only [List.foldl_cons, svg_poly_step, svg_poly_loop_rest, subpath, pair_text]
    apply String.ext
    simp [String.data_append]

theorem digitChar_isDigit : ∀ k, k < 10 → (Nat.digitChar k).isDigit = true := by decide

theorem toDigitsCore_chars (fuel : Nat) : ∀ (n : Nat) (ds : List Char) (c : Char),
    c ∈ Nat.toDigitsCore 10 fuel n ds → c.isDigit = true ∨ c ∈ ds := by
  induction fuel with
  | zero => intro n ds c h; exact Or.inr (by simpa [Nat.toDigitsCore] using h)
  | succ fuel ih =>
    intro n ds c h
    have hd : (Nat.digitChar (n % 10)).isDigit = true :=
      digitChar_isDigit _ (Nat.mod_lt _ (by decide))
    simp only [Nat.toDigitsCore] at h
    split at h
    · rcases List.mem_cons.1 h with h | h
      · exact Or.inl (h ▸ hd)
      · exact Or.inr h
    · rcases ih _ _ _ h with h | h
      · exact Or.inl h
      · rcases List.mem_cons.1 h with h | h
        · exact Or.inl (h ▸ hd)
        · exact Or.inr h

theorem nat_repr_chars (n : Nat) (c : Char) (h : c ∈ (Nat.repr n).data) : c.isDigit = true := by
  have := toDigitsCore_chars (n + 1) n [] c (by simpa [Nat.repr, Nat.toDigits] using h)
  simpa using this

theorem int_text_chars (i : Int) (c : Char) (h : c ∈ (toString i).data) :
    c.isDigit = true ∨ c = '-' := by
  cases i with
  | ofNat n => exact Or.inl (nat_repr_chars n c h)
  | negSucc n =>
    have h2 : c ∈ ("-" ++ Nat.repr (n + 1)).data := h
    rw [String.data_append] at h2
    rcases List.mem_append.1 h2 with h3 | h3
    · exact Or.inr (by simpa using h3)
    · exact Or.inl (nat_repr_chars _ c h3)

instance : NumericText Int where
  numeric := by
    intro a c h
    rcases int_text_chars a c h with h | h
    · simp [numeric_char, h]
    · simp [numeric_char, h]

/-! ## Characters of the path data -/

theorem put_count_zero {α : Type} [Streamable α] [NumericText α] (a : α) (c : Char)
    (hn : numeric_char c = false) : (Streamable.put a).data.count c = 0 := by
  rw [List.count_eq_zero]
  intro h
  have := NumericText.numeric a c h
  simp [hn] at this

theorem pair_text_count {α : Type} [Streamable α] [NumericText α] (p : Point α) (c : Char)
    (hn : numeric_char c = false) (hc : c ≠ ',') : (pair_text p).data.count c = 0 := by
  simp [pair_text, String.data_append, put_count_zero _ c hn, List.count_cons, Ne.symm hc]

theorem each_with_count {α : Type} [Streamable α] [NumericText α] (sep : String)
    (l : List (Point α)) (c : Char) (hn : numeric_char c = false) (hc : c ≠ ',') :
    (each_with sep l).data.count c = l.length * sep.data.count c := by
  induction l with
  | nil => simp [each_with]
  | cons p ps ih =>
    simp [each_with, String.data_append, ih, pair_text_count p c hn hc, Nat.succ_mul]
    omega

theorem subpath_count {α : Type} [Streamable α] [NumericText α] (r : List (Point α))
    (c : Char) (hn : numeric_char c = false) (hc : c ≠ ',') :
    (subpath r).data.count c
      = (if r.isEmpty then 0 else "M ".data.count c) + (r.length - 1) * " L ".data.count c := by
  cases r with
  | nil => simp [subpath]
  | cons p ps =>
    simp only [subpath, String.data_append, List.count_append, pair_text_count p c hn hc,
      each_with_count _ _ c hn hc]
    simp

theorem subpaths_count {α : Type} [Streamable α] [NumericText α] (rs : List (List (Point α)))
    (c : Char) (hn : numeric_char c = false) (hc : c ≠ ',') :
    (subpaths rs).data.count c
      = (rs.filter (fun r => !r.isEmpty)).length * "M ".data.count c
        + (rs.map (fun r => r.length - 1)).sum * " L ".data.count c := by
  induction rs with
  | nil => simp [subpaths]
  | cons r rs ih =>
    simp only [subpaths, String.data_append, List.count_append, ih, subpath_count r c hn hc,
      List.map_cons, List.sum_cons, List.filter_cons]
    cases r with
    | nil => simp
    | cons p ps => simp [Nat.add_mul]; omega

/-- The path data written for a ring list has no double quote and no `<`. -/
theorem subpaths_count_zero {α : Type} [Streamable α] [NumericText α]
    (rs : List (List (Point α))) (c : Char) (hn : numeric_char c = false) (hc : c ≠ ',')
    (hM : c ≠ 'M') (hL : c ≠ 'L') (hs : c ≠ ' ') : (subpaths rs).data.count c = 0 := by
  rw [subpaths_count rs c hn hc]
  simp [List.count_cons, Ne.symm hM, Ne.symm hL, Ne.symm hs]

/-- The text of a polygon, split at the path data. -/
theorem svg_poly_split {α : Type} [Streamable α] (polygon : Polygon α) (style : String)
    (size : Int) :
    svg_poly polygon style size
      = "<g fill-rule=\"evenodd\"><path d=\""
        ++ (subpaths (polygon.exterior_ring :: polygon.interior_rings) ++ " z ")
        ++ "\" style=\"" ++ style ++ "\"/></g>" := by
  rw [svg_poly_eq]
  apply String.ext
  simp [subpaths, String.data_append]

theorem d_attribute_of_split (d rest : String) (h : d.data.count '"' = 0) :
    d_attribute ("<g fill-rule=\"evenodd\"><path d=\"" ++ d ++ "\"" ++ rest) = d := by
  apply String.ext
  have hq : ∀ c ∈ d.data, (c != '"') = true := by
    intro c hc
    rw [List.count_eq_zero] at h
    simp only [bne_iff_ne, ne_eq]
    rintro rfl
    exact h hc
  have h1 : ("<g fill-rule=\"evenodd\"><path d=\"" ++ d ++ "\"" ++ rest).data
      = "<g fill-rule=\"evenodd\"><path d=\"".data ++ (d.data ++ '"' :: rest.data) := by
    simp [String.data_append]
  simp only [d_attribute, h1, String.length]
  rw [List.drop_left, List.takeWhile_append_of_pos hq]
  simp

/-- The `d` attribute of the text written by `svg_poly::apply`. -/
theorem svg_poly_d_attribute {α : Type} [Streamable α] [NumericText α] (polygon : Polygon α)
    (style : String) (size : Int) :
    d_attribute (svg_poly polygon style size)
      = subpaths (polygon.exterior_ring :: polygon.interior_rings) ++ " z " := by
  have h := d_attribute_of_split
    (subpaths (polygon.exterior_ring :: polygon.interior_rings) ++ " z ")
    (" style=\"" ++ style ++ "\"/></g>")
    (by
      rw [String.data_append, List.count_append,
        subpaths_count_zero _ '"' (by decide) (by decide) (by decide) (by decide) (by decide)]
      decide)
  rw [← h, svg_poly_split]
  congr 1
  apply String.ext
  simp [String.data_append]

/-! ## Occurrences of a pattern -/

theorem isPrefixOf_barrier (q : Char) (e : List Char) :
    ∀ (pat s : List Char), q ∉ pat → pat.isPrefixOf (s ++ q :: e) = pat.isPrefixOf s := by
  intro pat
  induction pat with
  | nil => intro s _; simp
  | cons a as ih =>
    intro s hq
    have ha : a ≠ q := fun h => hq (h ▸ List.mem_cons_self _ _)
    have has : q ∉ as := fun h => hq (List.mem_cons_of_mem _ h)
    cases s with
    | nil => simp [List.isPrefixOf, ha]
    | cons c s => simp [List.isPrefixOf, ih s has]

theorem occurrences_barrier (pat : List Char) (q : Char) (e : List Char) (hq : q ∉ pat)
    (s : List Char) :
    occurrences pat (s ++ q :: e) = occurrences pat s + occurrences pat (q :: e) := by
  induction s with
  | nil => simp [occurrences]
  | cons c s ih =>
    have h := isPrefixOf_barrier q e pat (c :: s) hq
    simp only [List.cons_append] at h
    show (if pat.isPrefixOf (c :: (s ++ q :: e)) then 1 else 0) + occurrences pat (s ++ q :: e)
      = ((if pat.isPrefixOf (c :: s) then 1 else 0) + occurrences pat s)
        + occurrences pat (q :: e)
    rw [h, ih]
    omega

theorem occurrences_skip (h : Char) (t : List Char) (l r : List Char)
    (hl : l.count h = 0) :
    occurrences (h :: t) (l ++ r) = occurrences (h :: t) r := by
  induction l with
  | nil => rfl
  | cons c l ih =>
    have hc : h ≠ c := by
      intro e
      subst e
      simp at hl
    have hl2 : l.count h = 0 := by
      rw [List.count_eq_zero] at hl ⊢
      exact fun hm => hl (List.mem_cons_of_mem _ hm)
    simp [occurrences, List.isPrefixOf, hc, ih hl2]

/-! ## Polygon encoder: path data -/

/-- C1 (as amended): for a polygon with integer coordinates whose rings are all non-empty,
the `d` attribute written by `svg_poly::apply` is the subpath of the exterior ring followed
by the subpaths of the interior rings in order, nothing written between two rings, and then
` z ` (space, `z`, space) with nothing after it. -/
theorem svg_poly_path_data (polygon : Polygon Int) (style : String) (size : Int)
    (_hne : ∀ r ∈ polygon.exterior_ring :: polygon.interior_rings, r ≠ []) :
    d_attribute (svg_poly polygon style size)
      = subpath polygon.exterior_ring ++ subpaths polygon.interior_rings ++ " z " := by
  rw [svg_poly_d_attribute]
  rfl

/-- The path data of C1 on the example polygon, whose two rings are non-empty. -/
theorem svg_poly_path_data_witness :
    (∀ r ∈ example_polygon.exterior_ring :: example_polygon.interior_rings, r ≠ [])
    ∧ d_attribute (svg_poly example_polygon "fill:grey" (-1))
      = subpath example_polygon.exterior_ring ++ subpaths example_polygon.interior_rings
        ++ " z " :=
  ⟨by decide, svg_poly_path_data example_polygon "fill:grey" (-1) (by decide)⟩

/-- C1 (as stated) fails on the specification's own example: the path data has no space
between the two rings and ends in a space. -/
theorem svg_poly_path_data_example :
    d_attribute (svg_poly example_polygon "" (-1))
        = "M 0,0 L 4,0 L 4,4 L 0,4M 1,1 L 2,1 L 2,2 L 1,2 z "
    ∧ d_attribute (svg_poly example_polygon "" (-1))
        ≠ "M 0,0 L 4,0 L 4,4 L 0,4 M 1,1 L 2,1 L 2,2 L 1,2 z" := by
  decide

/-- C2 (as amended): the `d` attribute written by `svg_poly::apply` holds one `M` for every
non-empty ring (`k + 1` of them when none of the `k + 1` rings is empty), one `L` for every
point of a ring after its first, and exactly one `z`, which stands after every `M` and `L`:
the attribute is a body without `z` followed by ` z `. -/
theorem svg_poly_command_counts {α : Type} [Streamable α] [NumericText α]
    (polygon : Polygon α) (style : String) (size : Int) :
    (d_attribute (svg_poly polygon style size)).data.count 'M'
        = ((polygon.exterior_ring :: polygon.interior_rings).filter
            (fun r => !r.isEmpty)).length
    ∧ (d_attribute (svg_poly polygon style size)).data.count 'L'
        = ((polygon.exterior_ring :: polygon.interior_rings).map
            (fun r => r.length - 1)).sum
    ∧ (d_attribute (svg_poly polygon style size)).data.count 'z' = 1
    ∧ (∃ body : String, d_attribute (svg_poly polygon style size) = body ++ " z "
        ∧ body.data.count 'z' = 0)
    ∧ ((∀ r ∈ polygon.exterior_ring :: polygon.interior_rings, r ≠ []) →
        (d_attribute (svg_poly polygon style size)).data.count 'M'
          = polygon.interior_rings.length + 1) := by
  rw [svg_poly_d_attribute]
  refine ⟨?_, ?_, ?_, ⟨_, rfl, ?_⟩, ?_⟩
  · rw [String.data_append, List.count_append,
      subpaths_count _ 'M' (by decide) (by decide)]
    simp [List.count_cons]
  · rw [String.data_append, List.count_append,
      subpaths_count _ 'L' (by decide) (by decide)]
    simp [List.count_cons]
  · rw [String.data_append, List.count_append,
      subpaths_count _ 'z' (by decide) (by decide)]
    simp [List.count_cons]
  · rw [subpaths_count _ 'z' (by decide) (by decide)]
    simp [List.count_cons]
  · intro hne
    rw [String.data_append, List.count_append,
      subpaths_count _ 'M' (by decide) (by decide),
      List.filter_eq_self.2 (fun r hr => by
        cases r with
        | nil => exact absurd rfl (hne [] hr)
        | cons p ps => rfl)]
    simp [List.count_cons]

/-- The counts of C2 on the example polygon: two rings of four points each. -/
theorem svg_poly_command_counts_witness :
    (d_attribute (svg_poly example_polygon "fill:grey" 3)).data.count 'M'
        = ((example_polygon.exterior_ring :: example_polygon.interior_rings).filter
            (fun r => !r.isEmpty)).length
    ∧ (d_attribute (svg_poly example_polygon "fill:grey" 3)).data.count 'L'
        = ((example_polygon.exterior_ring :: example_polygon.interior_rings).map
            (fun r => r.length - 1)).sum
    ∧ (d_attribute (svg_poly example_polygon "fill:grey" 3)).data.count 'z' = 1
    ∧ (∃ body : String, d_attribute (svg_poly example_polygon "fill:grey" 3) = body ++ " z "
        ∧ body.data.count 'z' = 0)
    ∧ (d_attribute (svg_poly example_polygon "fill:grey" 3)).data.count 'M'
        = example_polygon.interior_rings.length + 1 :=
  have h := svg_poly_command_counts example_polygon "fill:grey" 3
  ⟨h.1, h.2.1, h.2.2.1, h.2.2.2.1, h.2.2.2.2 (by decide)⟩

/-- C2 (as stated) fails for an empty ring: a polygon whose exterior ring is empty and
that has no interior ring (k = 0) gets path data without any `M`, not `k + 1 = 1`. -/
theorem svg_poly_empty_ring_no_move :
    (d_attribute (svg_poly ({ exterior_ring := [], interior_rings := [] } : Polygon Int)
        "" (-1))).data.count 'M' ≠ 0 + 1 := by
  decide

/-! ## Point and box encoders -/

/-- C3: `svg_point::apply` writes exactly `<circle cx="X" cy="Y" r="R" style="S"/>`, where
`R` is `size` when `size >= 0` and `5` when `size < 0`; the point (3,4) with style
`fill:red` and size -1 gives `<circle cx="3" cy="4" r="5" style="fill:red"/>`. -/
theorem svg_point_text {α : Type} [Streamable α] (p : Point α) (style : String) (size : Int) :
    svg_point p style size
        = "<circle cx=\"" ++ Streamable.put p.x ++ "\" cy=\"" ++ Streamable.put p.y
          ++ "\" r=\"" ++ toString (if 0 ≤ size then size else 5)
          ++ "\" style=\"" ++ style ++ "\"/>"
    ∧ svg_point ({ x := 3, y := 4 } : Point Int) "fill:red" (-1)
        = "<circle cx=\"3\" cy=\"4\" r=\"5\" style=\"fill:red\"/>" := by
  refine ⟨?_, by decide⟩
  unfold svg_point
  by_cases h : size < 0
  · rw [if_pos h, if_neg (by omega)]
  · rw [if_neg h, if_pos (by omega)]

theorem wrap32_of_range (i : Int) (h : InIntRange i) : wrap32 i = i := by
  unfold InIntRange at h
  unfold wrap32
  omega

theorem int_abs_of_diff (c x : Int) (hx : InIntRange x) (h : |c - x| ≤ 2147483647) :
    BoxArith.toInt (BoxArith.abs (BoxArith.subInt c (BoxArith.toInt x : Int))) = |c - x| := by
  have h1 : InIntRange (c - x) := by
    have := abs_le.1 h
    unfold InIntRange
    omega
  have h2 : InIntRange |c - x| := by
    have := abs_nonneg (c - x)
    unfold InIntRange
    omega
  show wrap32 (wrap32 |wrap32 (c - wrap32 x)|) = |c - x|
  rw [wrap32_of_range _ hx, wrap32_of_range _ h1, wrap32_of_range _ h2, wrap32_of_range _ h2]

/-- C4: for a box whose corners `(x1,y1)` and `(x2,y2)`, in any order, have coordinates in
the `int` range and whose absolute differences fit in an `int`, `svg_box::apply` writes
exactly `<rect x="x1" y="y1" width="|x2-x1|" height="|y2-y1|" style="S"/>`: the origin is
the min corner as passed in and an absolute difference of zero is written as `0`. -/
theorem svg_box_int_text (x1 y1 x2 y2 : Int) (style : String) (size : Int)
    (hx1 : InIntRange x1) (hy1 : InIntRange y1) (_hx2 : InIntRange x2) (_hy2 : InIntRange y2)
    (hw : |x2 - x1| ≤ 2147483647) (hh : |y2 - y1| ≤ 2147483647) :
    svg_box ({ min_corner := ⟨x1, y1⟩, max_corner := ⟨x2, y2⟩ } : Box Int) style size
      = "<rect x=\"" ++ toString x1 ++ "\" y=\"" ++ toString y1
        ++ "\" width=\"" ++ toString |x2 - x1| ++ "\" height=\"" ++ toString |y2 - y1|
        ++ "\" style=\"" ++ style ++ "\"/>" := by
  have hx := int_abs_of_diff x2 x1 hx1 hw
  have hy := int_abs_of_diff y2 y1 hy1 hh
  have ex : (BoxArith.toInt x1 : Int) = x1 := wrap32_of_range x1 hx1
  have ey : (BoxArith.toInt y1 : Int) = y1 := wrap32_of_range y1 hy1
  simp only [svg_box, svg_box_locals, hx, hy]
  rw [ex, ey]

/-- The box min (0,0), max (10,5) with style `stroke:black`: the corners are in the `int`
range and the differences 10 and 5 fit. -/
theorem svg_box_int_text_witness :
    (InIntRange 0 ∧ InIntRange 10 ∧ InIntRange 5)
    ∧ svg_box ({ min_corner := ⟨0, 0⟩, max_corner := ⟨10, 5⟩ } : Box Int) "stroke:black" (-1)
      = "<rect x=\"0\" y=\"0\" width=\"10\" height=\"5\" style=\"stroke:black\"/>" :=
  ⟨by decide,
    (svg_box_int_text 0 0 10 5 "stroke:black" (-1) (by decide) (by decide) (by decide)
      (by decide) (by decide) (by decide)).trans (by decide)⟩

/-- C5 (code at the failing input): for the box min (0.5, 0.5), max (1.75, 2.5) the `int`
locals of `svg_box::apply` are x = 0, y = 0, width = 1, height = 2, so the text is
`<rect x="0" y="0" width="1" height="2" .../>`: x and y are not the min corner's
coordinates and the width is not 1.25. -/
theorem svg_box_fraction_example :
    svg_box_locals example_fraction_box = { x := 0, y := 0, width := 1, height := 2 }
    ∧ svg_box example_fraction_box "" (-1)
        = "<rect x=\"0\" y=\"0\" width=\"1\" height=\"2\" style=\"\"/>"
    ∧ ((svg_box_locals example_fraction_box).x : Rat) ≠ example_fraction_box.min_corner.x
    ∧ ((svg_box_locals example_fraction_box).y : Rat) ≠ example_fraction_box.min_corner.y
    ∧ ((svg_box_locals example_fraction_box).width : Rat)
        ≠ |example_fraction_box.max_corner.x - example_fraction_box.min_corner.x| := by
  have h : svg_box_locals example_fraction_box = { x := 0, y := 0, width := 1, height := 2 } := by
    simp only [svg_box_locals, example_fraction_box, BoxArith.toInt, BoxArith.subInt,
      BoxArith.abs, truncToInt]
    norm_num [Int.floor_eq_iff, abs_of_nonneg]
  refine ⟨h, ?_, ?_, ?_, ?_⟩
  · simp only [svg_box, h]
    decide
  · rw [h]; norm_num [example_fraction_box]
  · rw [h]; norm_num [example_fraction_box]
  · rw [h]; norm_num [example_fraction_box, abs_of_nonneg]

/-! ## Path-range encoder -/

/-- C6: for every point sequence and every style `S`, `svg_range::apply` with
`prefix_linestring` writes a `polyline` element whose style attribute is `S` followed by
`;fill:none`; the open path [(0,0),(1,1),(2,0)] with style `stroke:blue` gives
`<polyline points="0,0 1,1 2,0" style="stroke:blue;fill:none"/>`. -/
theorem svg_range_linestring_style {α : Type} [Streamable α] (range : List (Point α))
    (style : String) (size : Int) :
    svg_range prefix_linestring range style size
        = "<polyline points=\"" ++ points_text range ++ "\" style=\""
          ++ (style ++ ";fill:none") ++ "\"/>"
    ∧ svg_range prefix_linestring ([⟨0, 0⟩, ⟨1, 1⟩, ⟨2, 0⟩] : List (Point Int))
          "stroke:blue" (-1)
        = "<polyline points=\"0,0 1,1 2,0\" style=\"stroke:blue;fill:none\"/>" := by
  refine ⟨?_, by decide⟩
  rw [svg_range_eq]
  simp [prefix_linestring, String.append_assoc]

/-- C7: for every point sequence and every style `S`, `svg_range::apply` with `prefix_ring`
writes a `polygon` element whose style attribute is `S` itself; the ring
[(0,0),(1,0),(1,1),(0,1)] with style `fill:green` gives
`<polygon points="0,0 1,0 1,1 0,1" style="fill:green"/>`. -/
theorem svg_range_ring_style {α : Type} [Streamable α] (range : List (Point α))
    (style : String) (size : Int) :
    svg_range prefix_ring range style size
        = "<polygon points=\"" ++ points_text range ++ "\" style=\"" ++ style ++ "\"/>"
    ∧ svg_range prefix_ring ([⟨0, 0⟩, ⟨1, 0⟩, ⟨1, 1⟩, ⟨0, 1⟩] : List (Point Int))
          "fill:green" (-1)
        = "<polygon points=\"0,0 1,0 1,1 0,1\" style=\"fill:green\"/>" := by
  refine ⟨?_, by decide⟩
  rw [svg_range_eq]
  simp [prefix_ring, String.append_assoc]

/-- C9: `svg_range::apply` accepts the empty sequence and writes an empty points attribute:
`<polyline points="" style="S;fill:none"/>` for an open path and
`<polygon points="" style="S"/>` for a ring. -/
theorem svg_range_empty {α : Type} [Streamable α] (style : String) (size : Int) :
    svg_range prefix_linestring ([] : List (Point α)) style size
        = "<polyline points=\"\" style=\"" ++ style ++ ";fill:none\"/>"
    ∧ svg_range prefix_ring ([] : List (Point α)) style size
        = "<polygon points=\"\" style=\"" ++ style ++ "\"/>" := by
  constructor
  · apply String.ext
    simp [svg_range, prefix_linestring, String.data_append]
  · apply String.ext
    simp [svg_range, prefix_ring, String.data_append]

/-- C8: for either policy and every point sequence, the points attribute written by
`svg_range::apply` is the pairs `X,Y` of the points, in sequence order, joined by single
spaces: nothing for no point, the pair alone for one point, and otherwise the first pair,
one space, and the text of the remaining points. -/
theorem svg_range_points_attribute {α : Type} [Streamable α] (policy : Policy)
    (range : List (Point α)) (style : String) (size : Int) :
    svg_range policy range style size
        = "<" ++ policy.elem_prefix ++ " points=\""
          ++ " ".intercalate
              (range.map (fun p => Streamable.put p.x ++ "," ++ Streamable.put p.y))
          ++ "\" style=\"" ++ style ++ policy.style ++ "\"/>"
    ∧ " ".intercalate (([] : List (Point α)).map
          (fun p => Streamable.put p.x ++ "," ++ Streamable.put p.y)) = ""
    ∧ (∀ p : Point α, " ".intercalate ([p].map
          (fun p => Streamable.put p.x ++ "," ++ Streamable.put p.y))
        = Streamable.put p.x ++ "," ++ Streamable.put p.y)
    ∧ (∀ (p q : Point α) (r : List (Point α)), " ".intercalate ((p :: q :: r).map
          (fun p => Streamable.put p.x ++ "," ++ Streamable.put p.y))
        = Streamable.put p.x ++ "," ++ Streamable.put p.y ++ " "
          ++ " ".intercalate ((q :: r).map
              (fun p => Streamable.put p.x ++ "," ++ Streamable.put p.y))) := by
  refine ⟨svg_range_eq policy range style size, rfl, fun p => rfl, fun p q r => ?_⟩
  show points_text (p :: q :: r) = pair_text p ++ " " ++ points_text (q :: r)
  rw [points_text_cons p (q :: r), points_text_cons q r]
  simp only [each_with, String.append_assoc]

/-! ## Polygon encoder: the group wrapper -/

theorem svg_poly_data {α : Type} [Streamable α] (polygon : Polygon α) (style : String)
    (size : Int) :
    (svg_poly polygon style size).data
      = "<g fill-rule=\"evenodd\"><path d=\"".data
        ++ ((subpaths (polygon.exterior_ring :: polygon.interior_rings)).data
        ++ (" z \" style=\"".data ++ (style.data ++ '"' :: "/></g>".data))) := by
  rw [svg_poly_split]
  simp [String.data_append]

theorem occurrences_svg_poly {α : Type} [Streamable α] [NumericText α] (polygon : Polygon α)
    (style : String) (size : Int) (t : List Char) (k : Nat) (hq : '"' ∉ '<' :: t)
    (hP : ∀ r : List Char,
      occurrences ('<' :: t) ("<g fill-rule=\"evenodd\"><path d=\"".data ++ r)
        = k + occurrences ('<' :: t) r)
    (hs : occurrences ('<' :: t) style.data = 0) :
    occurrences ('<' :: t) (svg_poly polygon style size).data
      = k + occurrences ('<' :: t) ('"' :: "/></g>".data) := by
  have hd : (subpaths (polygon.exterior_ring :: polygon.interior_rings)).data.count '<' = 0 :=
    subpaths_count_zero _ '<' (by decide) (by decide) (by decide) (by decide) (by decide)
  rw [svg_poly_data, hP, occurrences_skip '<' t _ _ hd,
    occurrences_skip '<' t _ _ (by decide), occurrences_barrier _ '"' _ hq, hs, Nat.zero_add]

/-- C10: the text written by `svg_poly::apply` begins with
`<g fill-rule="evenodd"><path d="` and ends with `" style="S"/></g>`, the style `S` being
inserted as it is, and each of `<g`, `<path` and `</g>` that does not occur in `S` occurs
exactly once in the text. -/
theorem svg_poly_group_wrapper {α : Type} [Streamable α] [NumericText α]
    (polygon : Polygon α) (style : String) (size : Int) :
    "<g fill-rule=\"evenodd\"><path d=\"".data <+: (svg_poly polygon style size).data
    ∧ ("\" style=\"" ++ style ++ "\"/></g>").data <:+ (svg_poly polygon style size).data
    ∧ ∀ pat ∈ ["<g", "<path", "</g>"], occurrences pat.data style.data = 0 →
        occurrences pat.data (svg_poly polygon style size).data = 1 := by
  refine ⟨?_, ?_, ?_⟩
  · rw [svg_poly_data]
    exact List.prefix_append _ _
  · refine ⟨"<g fill-rule=\"evenodd\"><path d=\"".data
      ++ ((subpaths (polygon.exterior_ring :: polygon.interior_rings)).data ++ " z ".data), ?_⟩
    rw [svg_poly_data]
    simp [String.data_append]
  · intro pat hpat hs
    simp only [List.mem_cons, List.mem_singleton, List.not_mem_nil, or_false] at hpat
    rcases hpat with rfl | rfl | rfl
    · rw [occurrences_svg_poly polygon style size ['g'] 1 (by decide)
        (fun r => by simp [occurrences, List.isPrefixOf]) hs]
      decide
    · rw [occurrences_svg_poly polygon style size ['p', 'a', 't', 'h'] 1 (by decide)
        (fun r => by simp [occurrences, List.isPrefixOf]) hs]
      decide
    · rw [occurrences_svg_poly polygon style size ['/', 'g', '>'] 0 (by decide)
        (fun r => by simp [occurrences, List.isPrefixOf]) hs]
      decide

/-- The wrapper of C10 on the example polygon with a style free of the three strings. -/
theorem svg_poly_group_wrapper_witness :
    "<g fill-rule=\"evenodd\"><path d=\"".data
        <+: (svg_poly example_polygon "fill:grey" (-1)).data
    ∧ ("\" style=\"" ++ "fill:grey" ++ "\"/></g>").data
        <:+ (svg_poly example_polygon "fill:grey" (-1)).data
    ∧ occurrences "<g".data "fill:grey".data = 0
    ∧ occurrences "<g".data (svg_poly example_polygon "fill:grey" (-1)).data = 1
    ∧ occurrences "<path".data (svg_poly example_polygon "fill:grey" (-1)).data = 1
    ∧ occurrences "</g>".data (svg_poly example_polygon "fill:grey" (-1)).data = 1 :=
  have h := svg_poly_group_wrapper example_polygon "fill:grey" (-1)
  ⟨h.1, h.2.1, by decide, h.2.2 "<g" (by decide) (by decide),
    h.2.2 "<path" (by decide) (by decide), h.2.2 "</g>" (by decide) (by decide)⟩

/-! ## Size hint, dispatch, manipulator -/

/-- C11: the size hint reaches the output only for points: for every box, open path, ring
and polygon, every style and every two sizes, the two encodings are the same text. -/
theorem svg_size_ignored {α : Type} [Streamable α] [BoxArith α] (box : Box α)
    (linestring ring : List (Point α)) (polygon : Polygon α) (style : String) (n1 n2 : Int) :
    svg_box box style n1 = svg_box box style n2
    ∧ svg_range prefix_linestring linestring style n1
        = svg_range prefix_linestring linestring style n2
    ∧ svg_range prefix_ring ring style n1 = svg_range prefix_ring ring style n2
    ∧ svg_poly polygon style n1 = svg_poly polygon style n2
    ∧ dispatch.svg .box_tag box style n1 = dispatch.svg .box_tag box style n2
    ∧ dispatch.svg .linestring_tag linestring style n1
        = dispatch.svg .linestring_tag linestring style n2
    ∧ dispatch.svg .ring_tag ring style n1 = dispatch.svg .ring_tag ring style n2
    ∧ dispatch.svg .polygon_tag polygon style n1 = dispatch.svg .polygon_tag polygon style n2 :=
  ⟨rfl, rfl, rfl, rfl, rfl, rfl, rfl, rfl⟩

theorem element_name_of_data (out : String) (name rest : List Char)
    (h : out.data = '<' :: (name ++ ' ' :: rest)) (hn : name.count ' ' = 0) :
    element_name out = ⟨name⟩ := by
  have hq : ∀ c ∈ name, (c != ' ') = true := by
    intro c hc
    rw [List.count_eq_zero] at hn
    simp only [bne_iff_ne, ne_eq]
    rintro rfl
    exact hn hc
  apply String.ext
  simp only [element_name, h, List.drop_succ_cons, List.drop_zero]
  rw [List.takeWhile_append_of_pos hq]
  simp

/-- C12: `dispatch::svg` forwards to exactly one encoder, chosen by the tag: `svg_point` for
a point, `svg_box` for a box, `svg_range` with `prefix_linestring` for a linestring,
`svg_range` with `prefix_ring` for a ring and `svg_poly` for a polygon; the five texts start
with `<circle`, `<rect`, `<polyline`, `<polygon ` and `<g `, and their element names
`circle`, `rect`, `polyline`, `polygon`, `g` are pairwise different. -/
theorem dispatch_svg_selects {α : Type} [Streamable α] [BoxArith α] (p : Point α)
    (box : Box α) (linestring ring : List (Point α)) (polygon : Polygon α) (style : String)
    (size : Int) :
    (dispatch.svg .point_tag p style size = svg_point p style size
      ∧ dispatch.svg .box_tag box style size = svg_box box style size
      ∧ dispatch.svg .linestring_tag linestring style size
          = svg_range prefix_linestring linestring style size
      ∧ dispatch.svg .ring_tag ring style size = svg_range prefix_ring ring style size
      ∧ dispatch.svg .polygon_tag polygon style size = svg_poly polygon style size)
    ∧ ("<circle".data <+: (dispatch.svg .point_tag p style size).data
      ∧ "<rect".data <+: (dispatch.svg .box_tag box style size).data
      ∧ "<polyline".data <+: (dispatch.svg .linestring_tag linestring style size).data
      ∧ "<polygon ".data <+: (dispatch.svg .ring_tag ring style size).data
      ∧ "<g ".data <+: (dispatch.svg .polygon_tag polygon style size).data)
    ∧ (element_name (dispatch.svg .point_tag p style size) = "circle"
      ∧ element_name (dispatch.svg .box_tag box style size) = "rect"
      ∧ element_name (dispatch.svg .linestring_tag linestring style size) = "polyline"
      ∧ element_name (dispatch.svg .ring_tag ring style size) = "polygon"
      ∧ element_name (dispatch.svg .polygon_tag polygon style size) = "g")
    ∧ [element_name (dispatch.svg .point_tag p style size),
        element_name (dispatch.svg .box_tag box style size),
        element_name (dispatch.svg .linestring_tag linestring style size),
        element_name (dispatch.svg .ring_tag ring style size),
        element_name (dispatch.svg .polygon_tag polygon style size)].Nodup := by
  have h1 : ∃ rest, (svg_point p style size).data = '<' :: ("circle".data ++ ' ' :: rest) :=
    ⟨_, by simp [svg_point, String.data_append]; rfl⟩
  have h2 : ∃ rest, (svg_box box style size).data = '<' :: ("rect".data ++ ' ' :: rest) :=
    ⟨_, by simp [svg_box, String.data_append]; rfl⟩
  have h3 : ∃ rest, (svg_range prefix_linestring linestring style size).data
      = '<' :: ("polyline".data ++ ' ' :: rest) :=
    ⟨_, by rw [svg_range_eq]; simp [prefix_linestring, String.data_append]; rfl⟩
  have h4 : ∃ rest, (svg_range prefix_ring ring style size).data
      = '<' :: ("polygon".data ++ ' ' :: rest) :=
    ⟨_, by rw [svg_range_eq]; simp [prefix_ring, String.data_append]; rfl⟩
  have h5 : ∃ rest, (svg_poly polygon style size).data = '<' :: ("g".data ++ ' ' :: rest) :=
    ⟨_, by rw [svg_poly_eq]; simp [String.data_append]; rfl⟩
  obtain ⟨r1, h1⟩ := h1
  obtain ⟨r2, h2⟩ := h2
  obtain ⟨r3, h3⟩ := h3
  obtain ⟨r4, h4⟩ := h4
  obtain ⟨r5, h5⟩ := h5
  have e1 := element_name_of_data _ _ _ h1 (by decide)
  have e2 := element_name_of_data _ _ _ h2 (by decide)
  have e3 := element_name_of_data _ _ _ h3 (by decide)
  have e4 := element_name_of_data _ _ _ h4 (by decide)
  have e5 := element_name_of_data _ _ _ h5 (by decide)
  refine ⟨⟨rfl, rfl, rfl, rfl, rfl⟩, ⟨?_, ?_, ?_, ?_, ?_⟩, ⟨e1, e2, e3, e4, e5⟩, ?_⟩
  · show _ <+: (svg_point p style size).data
    rw [h1]; exact ⟨' ' :: r1, by simp⟩
  · show _ <+: (svg_box box style size).data
    rw [h2]; exact ⟨' ' :: r2, by simp⟩
  · show _ <+: (svg_range prefix_linestring linestring style size).data
    rw [h3]; exact ⟨' ' :: r3, by simp⟩
  · show _ <+: (svg_range prefix_ring ring style size).data
    rw [h4]; exact ⟨r4, by simp⟩
  · show _ <+: (svg_poly polygon style size).data
    rw [h5]; exact ⟨r5, by simp⟩
  · show [element_name (svg_point p style size), element_name (svg_box box style size),
      element_name (svg_range prefix_linestring linestring style size),
      element_name (svg_range prefix_ring ring style size),
      element_name (svg_poly polygon style size)].Nodup
    rw [e1, e2, e3, e4, e5]
    decide

/-- C13: writing the manipulator built by `svg(t, style, size)` to a sink appends exactly
the text `dispatch::svg` produces, keeps the text written before as a prefix, and leaves the
sink flushed; `svg(t, style)` is `svg(t, style, -1)`. -/
theorem svg_manipulator_insert_sink {α : Type} [Streamable α] [BoxArith α] (os : Sink)
    (tag : geometry_tag) (t : geometry_of α tag) (style : String) (size : Int) :
    (svg_manipulator.insert os (svg tag t style size)).text
        = os.text ++ dispatch.svg tag t style size
    ∧ os.text.data <+: (svg_manipulator.insert os (svg tag t style size)).text.data
    ∧ (svg_manipulator.insert os (svg tag t style size)).flushed = true
    ∧ svg tag t style = svg tag t style (-1)
    ∧ svg_manipulator.insert os (svg tag t style)
        = { text := os.text ++ dispatch.svg tag t style (-1), flushed := true } :=
  ⟨rfl, ⟨(dispatch.svg tag t style size).data, rfl⟩, rfl, rfl, rfl⟩

/-! ## Polygon encoder: command letters and exact text -/

theorem put_letters {α : Type} [Streamable α] [NumericText α] (a : α) :
    command_letters (Streamable.put a) = [] := by
  unfold command_letters
  rw [List.filter_eq_nil_iff]
  intro c hc
  have h := NumericText.numeric a c hc
  intro hf
  simp only [Bool.or_eq_true, beq_iff_eq] at hf
  rcases hf with (rfl | rfl) | rfl <;> simp [numeric_char] at h

theorem command_letters_append (s t : String) :
    command_letters (s ++ t) = command_letters s ++ command_letters t := by
  simp [command_letters, String.data_append]

theorem pair_text_letters {α : Type} [Streamable α] [NumericText α] (p : Point α) :
    command_letters (pair_text p) = [] := by
  simp only [pair_text, command_letters_append, put_letters]
  decide

theorem each_with_letters {α : Type} [Streamable α] [NumericText α] (ps : List (Point α)) :
    command_letters (each_with " L " ps) = List.replicate ps.length 'L' := by
  induction ps with
  | nil => rfl
  | cons p ps ih =>
    simp only [each_with, command_letters_append, pair_text_letters, ih, List.length_cons,
      List.replicate_succ]
    rfl

theorem subpath_letters {α : Type} [Streamable α] [NumericText α] (r : List (Point α)) :
    command_letters (subpath r) = ring_commands r := by
  cases r with
  | nil => rfl
  | cons p ps =>
    simp only [subpath, command_letters_append, pair_text_letters, each_with_letters,
      ring_commands]
    rfl

theorem subpaths_letters {α : Type} [Streamable α] [NumericText α]
    (rs : List (List (Point α))) :
    command_letters (subpaths rs) = (rs.map ring_commands).flatten := by
  induction rs with
  | nil => rfl
  | cons r rs ih =>
    simp only [subpaths, command_letters_append, subpath_letters, ih, List.map_cons,
      List.flatten_cons]

/-- C15: the command letters of the path data written by `svg_poly::apply` are, for each
ring in order (exterior ring, then the interior rings), one `M` for its first point followed
by one `L` for each of its remaining points, independently of the rings before it, and
finally a single `z`. -/
theorem svg_poly_command_sequence {α : Type} [Streamable α] [NumericText α]
    (polygon : Polygon α) (style : String) (size : Int) :
    command_letters (d_attribute (svg_poly polygon style size))
      = ((polygon.exterior_ring :: polygon.interior_rings).map ring_commands).flatten
        ++ ['z'] := by
  rw [svg_poly_d_attribute, command_letters_append, subpaths_letters]
  rfl

/-- The command letters of C15 on the example polygon: `M L L L` twice, then `z`. -/
theorem svg_poly_command_sequence_witness :
    command_letters (d_attribute (svg_poly example_polygon "fill:grey" (-1)))
      = ['M', 'L', 'L', 'L', 'M', 'L', 'L', 'L', 'z'] :=
  (svg_poly_command_sequence example_polygon "fill:grey" (-1)).trans (by decide)

theorem string_join_data (ss : List String) :
    (String.join ss).data = (ss.map String.data).flatten := by
  rw [String.join_eq]

theorem subpaths_eq_join {α : Type} [Streamable α] (rs : List (List (Point α))) :
    subpaths rs = String.join (rs.map subpath) := by
  apply String.ext
  rw [string_join_data]
  induction rs with
  | nil => rfl
  | cons r rs ih => simp [subpaths, String.data_append, ih]

theorem each_with_eq_join {α : Type} [Streamable α] (sep : String) (ps : List (Point α)) :
    each_with sep ps
      = String.join (ps.map (fun q => sep ++ Streamable.put q.x ++ "," ++ Streamable.put q.y)) := by
  apply String.ext
  rw [string_join_data, each_with_data]
  simp [List.map_map, Function.comp_def, pair_text, String.data_append]

theorem subpaths_replicate_nil {α : Type} [Streamable α] (n : Nat) :
    subpaths (List.replicate n ([] : List (Point α))) = "" := by
  induction n with
  | zero => rfl
  | succ n ih => simp [List.replicate_succ, subpaths, subpath, ih]

/-- C17: the text written by `svg_poly::apply` is `<g fill-rule="evenodd"><path d="`, the
subpaths of the exterior ring and of the interior rings in order with nothing between them,
then ` z " style="`, the style and `"/></g>`; the subpath of an empty ring is empty and that
of `p1..pn` is `M x1,y1` followed by ` L xi,yi` for `i = 2..n`; when every ring is empty
the path data is exactly ` z `. -/
theorem svg_poly_text {α : Type} [Streamable α] (polygon : Polygon α) (style : String)
    (size : Int) :
    svg_poly polygon style size
        = "<g fill-rule=\"evenodd\"><path d=\""
          ++ String.join ((polygon.exterior_ring :: polygon.interior_rings).map subpath)
          ++ " z \" style=\"" ++ style ++ "\"/></g>"
    ∧ subpath ([] : List (Point α)) = ""
    ∧ (∀ (p : Point α) (ps : List (Point α)), subpath (p :: ps)
        = "M " ++ Streamable.put p.x ++ "," ++ Streamable.put p.y
          ++ String.join
              (ps.map (fun q => " L " ++ Streamable.put q.x ++ "," ++ Streamable.put q.y)))
    ∧ ∀ n : Nat,
        d_attribute (svg_poly
          ({ exterior_ring := [], interior_rings := List.replicate n [] } : Polygon α)
          style size) = " z " := by
  refine ⟨?_, rfl, ?_, ?_⟩
  · rw [svg_poly_split, subpaths_eq_join]
    apply String.ext
    simp [String.data_append]
  · intro p ps
    rw [← each_with_eq_join]
    simp [subpath, pair_text, String.append_assoc]
  · intro n
    rw [svg_poly_eq]
    simp only [subpath, subpaths_replicate_nil, String.append_empty]
    exact d_attribute_of_split " z " (" style=\"" ++ style ++ "\"/></g>") (by decide)

/-! ## Box encoder at the edge of the `int` range -/

theorem wrap32_range (i : Int) : InIntRange (wrap32 i) := by
  unfold InIntRange wrap32
  omega

/-- The sign of the width local of `svg_box::apply` for `int` coordinates: it is negative
exactly when the wrapped difference is `-2147483648`. -/
theorem svg_box_width_neg_iff (box : Box Int) (hmin : InIntRange box.min_corner.x) :
    (svg_box_locals box).width < 0
      ↔ wrap32 (box.max_corner.x - box.min_corner.x) = -2147483648 := by
  show wrap32 (wrap32 |wrap32 (box.max_corner.x - wrap32 box.min_corner.x)|) < 0 ↔ _
  rw [wrap32_of_range _ hmin, wrap32_of_range _ (wrap32_range _)]
  have h := wrap32_range (box.max_corner.x - box.min_corner.x)
  generalize wrap32 (box.max_corner.x - box.min_corner.x) = d at h ⊢
  unfold InIntRange at h
  unfold wrap32
  rcases abs_cases d with ⟨h1, _⟩ | ⟨h1, _⟩ <;> rw [h1] <;> omega

/-- C16 (code at the failing input): for the `int` box min (0, 0), max (-2147483648, 0),
whose coordinates are all in the `int` range, the difference is `-2147483648`, its absolute
value wraps to `-2147483648`, and `svg_box::apply` writes the negative width
`width="-2147483648"`. -/
theorem svg_box_int_min_width :
    (InIntRange example_int_min_box.min_corner.x ∧ InIntRange example_int_min_box.min_corner.y
      ∧ InIntRange example_int_min_box.max_corner.x
      ∧ InIntRange example_int_min_box.max_corner.y)
    ∧ svg_box_locals example_int_min_box
        = { x := 0, y := 0, width := -2147483648, height := 0 }
    ∧ (svg_box_locals example_int_min_box).width < 0
    ∧ svg_box example_int_min_box "" (-1)
        = "<rect x=\"0\" y=\"0\" width=\"-2147483648\" height=\"0\" style=\"\"/>" := by
  decide

/-! ## The ring encoding determines its input -/

theorem digitChar_value : ∀ k, k < 10 → (Nat.digitChar k).toNat - 48 = k := by decide

theorem toDigitsCore_value (fuel : Nat) : ∀ (n : Nat) (ds : List Char), n < fuel →
    digits_value 0 (Nat.toDigitsCore 10 fuel n ds) = digits_value n ds := by
  induction fuel with
  | zero => intro n ds h; omega
  | succ fuel ih =>
    intro n ds h
    have hd := digitChar_value (n % 10) (Nat.mod_lt _ (by decide))
    simp only [Nat.toDigitsCore]
    split
    · rename_i h0
      simp only [digits_value, List.foldl_cons, hd]
      congr 1
      omega
    · rename_i h0
      rw [ih (n / 10) _ (by omega)]
      simp only [digits_value, List.foldl_cons, hd]
      congr 1
      omega

theorem nat_repr_injective (n m : Nat) (h : (Nat.repr n).data = (Nat.repr m).data) : n = m := by
  have hn := toDigitsCore_value (n + 1) n [] (by omega)
  have hm := toDigitsCore_value (m + 1) m [] (by omega)
  have h2 : Nat.toDigitsCore 10 (n + 1) n [] = Nat.toDigitsCore 10 (m + 1) m [] := by
    simpa [Nat.repr, Nat.toDigits] using h
  rw [h2, hm] at hn
  simpa [digits_value] using hn.symm

theorem int_text_injective (i j : Int) (h : (toString i).data = (toString j).data) : i = j := by
  have hminus : ∀ (n m : Nat), (Nat.repr n).data ≠ '-' :: (Nat.repr m).data := by
    intro n m e
    have := nat_repr_chars n '-' (by rw [e]; exact List.mem_cons_self _ _)
    exact absurd this (by decide)
  cases i with
  | ofNat n =>
    cases j with
    | ofNat m => rw [nat_repr_injective n m h]
    | negSucc m => exact absurd h (hminus n (m + 1))
  | negSucc n =>
    cases j with
    | ofNat m => exact absurd h.symm (hminus m (n + 1))
    | negSucc m =>
      have h2 : '-' :: (Nat.repr (n + 1)).data = '-' :: (Nat.repr (m + 1)).data := h
      have h3 := nat_repr_injective _ _ (List.cons_injective h2)
      have h4 : n = m := by omega
      rw [h4]

theorem split_at_first (sep : Char) : ∀ (a a2 r r2 : List Char), sep ∉ a → sep ∉ a2 →
    a ++ sep :: r = a2 ++ sep :: r2 → a = a2 ∧ r = r2 := by
  intro a
  induction a with
  | nil =>
    intro a2 r r2 _ h2 h
    cases a2 with
    | nil => exact ⟨rfl, List.tail_eq_of_cons_eq h⟩
    | cons c t =>
      have : sep = c := List.head_eq_of_cons_eq h
      exact absurd (this ▸ List.mem_cons_self _ _) h2
  | cons c t ih =>
    intro a2 r r2 h1 h2 h
    cases a2 with
    | nil =>
      have : c = sep := List.head_eq_of_cons_eq h
      exact absurd (this ▸ List.mem_cons_self _ _) h1
    | cons c2 t2 =>
      have hc : c = c2 := List.head_eq_of_cons_eq h
      have ht := ih t2 r r2 (fun hm => h1 (List.mem_cons_of_mem _ hm))
        (fun hm => h2 (List.mem_cons_of_mem _ hm)) (List.tail_eq_of_cons_eq h)
      exact ⟨by rw [hc, ht.1], ht.2⟩

theorem int_text_no (i : Int) (c : Char) (hd : c.isDigit = false) (hm : c ≠ '-') :
    c ∉ (toString i).data := by
  intro h
  rcases int_text_chars i c h with h | h
  · rw [hd] at h; exact absurd h (by decide)
  · exact hm h

theorem pair_text_data (p : Point Int) :
    (pair_text p).data = (toString p.x).data ++ ',' :: (toString p.y).data := by
  simp [pair_text, Streamable.put, String.data_append]

theorem pair_text_injective (p q : Point Int) (h : (pair_text p).data = (pair_text q).data) :
    p = q := by
  rw [pair_text_data, pair_text_data] at h
  have hs := split_at_first ',' _ _ _ _ (int_text_no p.x ',' (by decide) (by decide))
    (int_text_no q.x ',' (by decide) (by decide)) h
  have hx := int_text_injective _ _ hs.1
  have hy := int_text_injective _ _ hs.2
  cases p; cases q
  simp only at hx hy
  rw [hx, hy]

theorem pair_text_no_space (p : Point Int) : ' ' ∉ (pair_text p).data := by
  rw [pair_text_data]
  intro h
  rcases List.mem_append.1 h with h | h
  · exact int_text_no p.x ' ' (by decide) (by decide) h
  · rcases List.mem_cons.1 h with h | h
    · exact absurd h (by decide)
    · exact int_text_no p.y ' ' (by decide) (by decide) h

theorem each_with_space_cons (q : Point Int) (qs : List (Point Int)) :
    (each_with " " (q :: qs)).data = ' ' :: ((pair_text q).data ++ (each_with " " qs).data) := by
  simp [each_with, String.data_append]

theorem each_with_nil_data (sep : String) :
    (each_with sep ([] : List (Point Int))).data = [] := rfl

theorem joined_injective : ∀ (ps ps2 : List (Point Int)) (p p2 : Point Int),
    (pair_text p).data ++ (each_with " " ps).data
      = (pair_text p2).data ++ (each_with " " ps2).data → p = p2 ∧ ps = ps2 := by
  intro ps
  induction ps with
  | nil =>
    intro ps2 p p2 h
    cases ps2 with
    | nil =>
      simp only [each_with_nil_data, List.append_nil] at h
      exact ⟨pair_text_injective p p2 h, rfl⟩
    | cons q2 qs2 =>
      rw [each_with_space_cons] at h
      simp only [each_with_nil_data, List.append_nil] at h
      exact absurd (h ▸ List.mem_append_right _ (List.mem_cons_self _ _))
        (pair_text_no_space p)
  | cons q qs ih =>
    intro ps2 p p2 h
    cases ps2 with
    | nil =>
      rw [each_with_space_cons] at h
      simp only [each_with_nil_data, List.append_nil] at h
      exact absurd (h ▸ List.mem_append_right _ (List.mem_cons_self _ _))
        (pair_text_no_space p2)
    | cons q2 qs2 =>
      rw [each_with_space_cons, each_with_space_cons] at h
      have hs := split_at_first ' ' _ _ _ _ (pair_text_no_space p) (pair_text_no_space p2) h
      have ht := ih qs2 q q2 hs.2
      exact ⟨pair_text_injective p p2 hs.1, by rw [ht.1, ht.2]⟩

theorem points_text_injective (pts1 pts2 : List (Point Int))
    (h : (points_text pts1).data = (points_text pts2).data) : pts1 = pts2 := by
  have hne : ∀ (p : Point Int) (ps : List (Point Int)),
      (points_text (p :: ps)).data ≠ (points_text ([] : List (Point Int))).data := by
    intro p ps e
    rw [points_text_cons, String.data_append, pair_text_data] at e
    have : (points_text ([] : List (Point Int))).data = [] := rfl
    rw [this] at e
    simp at e
  cases pts1 with
  | nil =>
    cases pts2 with
    | nil => rfl
    | cons p ps => exact absurd h.symm (hne p ps)
  | cons p ps =>
    cases pts2 with
    | nil => exact absurd h (hne p ps)
    | cons p2 ps2 =>
      rw [points_text_cons, points_text_cons, String.data_append, String.data_append] at h
      have := joined_injective ps ps2 p p2 h
      rw [this.1, this.2]

theorem points_text_no_quote (pts : List (Point Int)) : '"' ∉ (points_text pts).data := by
  rw [← List.count_eq_zero]
  cases pts with
  | nil => rfl
  | cons p ps =>
    rw [points_text_cons, String.data_append, List.count_append,
      pair_text_count p '"' (by decide) (by decide),
      each_with_count " " ps '"' (by decide) (by decide)]
    simp

theorem svg_ring_data (pts : List (Point Int)) (style : String) (size : Int) :
    (svg_range prefix_ring pts style size).data
      = "<polygon points=\"".data
        ++ ((points_text pts).data
        ++ '"' :: (" style=\"".data ++ (style.data ++ "\"/>".data))) := by
  rw [svg_range_eq]
  simp [prefix_ring, String.data_append]

/-- C18: the ring encoding loses no information for integer coordinates: if
`svg_range::apply` with `prefix_ring` writes the same text for `(pts1, S1)` and
`(pts2, S2)`, then `pts1 = pts2` and `S1 = S2`. -/
theorem svg_ring_injective (pts1 pts2 : List (Point Int)) (S1 S2 : String) (n1 n2 : Int)
    (h : svg_range prefix_ring pts1 S1 n1 = svg_range prefix_ring pts2 S2 n2) :
    pts1 = pts2 ∧ S1 = S2 := by
  have hd := congrArg String.data h
  rw [svg_ring_data, svg_ring_data] at hd
  have h1 := List.append_cancel_left hd
  have hs := split_at_first '"' _ _ _ _ (points_text_no_quote pts1)
    (points_text_no_quote pts2) h1
  have h2 := List.append_cancel_right (List.append_cancel_left hs.2)
  exact ⟨points_text_injective pts1 pts2 hs.1, String.ext h2⟩

/-- The hypothesis of C18 holds for two encodings of the unit square, written down in two
ways and with different size hints; the conclusion identifies the two ways. -/
theorem svg_ring_injective_witness :
    svg_range prefix_ring example_ring "fill:green" 3
        = svg_range prefix_ring (example_ring.take 2 ++ example_ring.drop 2)
            ("fill:" ++ "green") (-1)
    ∧ example_ring = example_ring.take 2 ++ example_ring.drop 2
    ∧ "fill:green" = "fill:" ++ "green" :=
  ⟨by decide, svg_ring_injective _ _ _ _ 3 (-1) (by decide)⟩

/-! ## Encoders on a stream with format state -/

theorem ostream.padded_of_width_zero (os : ostream) (s : String) (h : os.width = 0) :
    os.padded s = s := by
  unfold ostream.padded
  rw [h, Nat.zero_sub]
  cases os.left <;> simp

theorem ostream.insert_insert (os : ostream) (s t : String) :
    (os.insert s).insert t = (os.insert s).append t := by
  have h := ostream.padded_of_width_zero (os.insert s) t rfl
  simp only [ostream.insert, ostream.append] at h ⊢
  rw [h]

theorem ostream.append_insert (os : ostream) (s t u : String) :
    ((os.insert s).append t).insert u = (os.insert s).append (t ++ u) := by
  have h := ostream.padded_of_width_zero ((os.insert s).append t) u rfl
  simp only [ostream.insert, ostream.append, String.append_assoc] at h ⊢
  rw [h]

theorem svg_range_stream_loop {α : Type} [Streamable α] (os : ostream) (s : String)
    (range : List (Point α)) : ∀ (t : String) (first : Bool),
    range.foldl svg_range.step ((os.insert s).append t, first)
      = ((os.insert s).append (range.foldl svg_range_step (t, first)).1,
          (range.foldl svg_range_step (t, first)).2) := by
  induction range with
  | nil => intro t first; rfl
  | cons p ps ih =>
    intro t first
    simp only [List.foldl_cons, svg_range.step, svg_range_step, ostream.append_insert, ih]

theorem svg_poly_stream_loop {α : Type} [Streamable α] (os : ostream) (s : String)
    (ring : List (Point α)) : ∀ (t : String) (first : Bool),
    ring.foldl svg_poly.step ((os.insert s).append t, first)
      = ((os.insert s).append (ring.foldl svg_poly_step (t, first)).1,
          (ring.foldl svg_poly_step (t, first)).2) := by
  induction ring with
  | nil => intro t first; rfl
  | cons p ps ih =>
    intro t first
    simp only [List.foldl_cons, svg_poly.step, svg_poly_step, ostream.append_insert, ih,
      String.append_assoc]

theorem svg_poly_stream_rings_loop {α : Type} [Streamable α] (os : ostream) (s : String)
    (rings : List (List (Point α))) : ∀ (t : String) (first : Bool),
    rings.foldl svg_poly.ring_step ((os.insert s).append t, first)
      = ((os.insert s).append (rings.foldl svg_poly_ring_step (t, first)).1,
          (rings.foldl svg_poly_ring_step (t, first)).2) := by
  induction rings with
  | nil => intro t first; rfl
  | cons r rs ih =>
    intro t first
    simp only [List.foldl_cons, svg_poly.ring_step, svg_poly_ring_step, svg_poly_stream_loop, ih]

theorem ostream.insert_eq_append (os : ostream) (s : String) :
    os.insert s = (os.insert s).append "" := by
  simp [ostream.append]

theorem svg_point_apply_eq {α : Type} [Streamable α] (os : ostream) (p : Point α)
    (style : String) (size : Int) :
    svg_point.apply os p style size
      = (os.insert "<circle cx=\"").append
          (Streamable.put p.x ++ "\" cy=\"" ++ Streamable.put p.y ++ "\" r=\""
            ++ toString (if size < 0 then 5 else size) ++ "\" style=\"" ++ style ++ "\"/>") := by
  simp only [svg_point.apply, ostream.insert_insert, ostream.append_insert]

theorem svg_box_apply_eq {α : Type} [BoxArith α] (os : ostream) (box : Box α)
    (style : String) (size : Int) :
    svg_box.apply os box style size
      = (os.insert "<rect x=\"").append
          (toString (svg_box_locals box).x ++ "\" y=\"" ++ toString (svg_box_locals box).y
            ++ "\" width=\"" ++ toString (svg_box_locals box).width
            ++ "\" height=\"" ++ toString (svg_box_locals box).height
            ++ "\" style=\"" ++ style ++ "\"/>") := by
  simp only [svg_box.apply, ostream.insert_insert, ostream.append_insert]

theorem svg_range_apply_eq {α : Type} [Streamable α] (policy : Policy) (os : ostream)
    (range : List (Point α)) (style : String) (size : Int) :
    svg_range.apply policy os range style size
      = (os.insert "<").append
          (policy.elem_prefix ++ " points=\"" ++ points_text range ++ "\" style=\"" ++ style
            ++ policy.style ++ "\"/>") := by
  simp only [svg_range.apply, ostream.insert_insert, ostream.append_insert, svg_range_stream_loop,
    svg_range_loop]

theorem svg_poly_apply_eq {α : Type} [Streamable α] (os : ostream) (polygon : Polygon α)
    (style : String) (size : Int) :
    svg_poly.apply os polygon style size
      = (os.insert "<g fill-rule=\"evenodd\"><path d=\"").append
          (subpath polygon.exterior_ring ++ subpaths polygon.interior_rings
            ++ " z \" style=\"" ++ style ++ "\"/></g>") := by
  rw [svg_poly.apply, ostream.insert_eq_append os, svg_poly_stream_loop, svg_poly_stream_rings_loop]
  simp only [ostream.append_insert, svg_poly_rings_loop, svg_poly_loop, String.empty_append]
  simp only [ostream.append, String.append_empty]

/-- What an encoder writes to a stream with format state: its first literal, padded to the
field width, then the rest of the text it writes to a plain stream. -/
theorem dispatch_svg_apply_eq {α : Type} [Streamable α] [BoxArith α] (tag : geometry_tag)
    (os : ostream) (g : geometry_of α tag) (style : String) (size : Int) :
    ∃ rest : String, dispatch.svg tag g style size = first_literal tag ++ rest
      ∧ dispatch.svg.apply tag os g style size
          = (os.insert (first_literal tag)).append rest := by
  cases tag with
  | point_tag =>
    exact ⟨_, by simp only [dispatch.svg, svg_point, first_literal, String.append_assoc],
      svg_point_apply_eq os g style size⟩
  | box_tag =>
    exact ⟨_, by simp only [dispatch.svg, svg_box, first_literal, String.append_assoc],
      svg_box_apply_eq os g style size⟩
  | linestring_tag =>
    exact ⟨_, by simp only [dispatch.svg, svg_range_eq, first_literal, String.append_assoc],
      svg_range_apply_eq prefix_linestring os g style size⟩
  | ring_tag =>
    exact ⟨_, by simp only [dispatch.svg, svg_range_eq, first_literal, String.append_assoc],
      svg_range_apply_eq prefix_ring os g style size⟩
  | polygon_tag =>
    exact ⟨_, by simp only [dispatch.svg, svg_poly_eq, first_literal, String.append_assoc],
      svg_poly_apply_eq os g style size⟩

theorem svg_manipulator.stream_insert_eq {α : Type} [Streamable α] [BoxArith α]
    (os : ostream) (m : svg_manipulator α) :
    ∃ rest : String,
      dispatch.svg m.tag m.m_geometry m.m_style m.m_size = first_literal m.tag ++ rest
      ∧ svg_manipulator.stream_insert os m
          = { text := os.text ++ os.padded (first_literal m.tag) ++ rest, flushed := true,
              width := 0, fill := os.fill, left := os.left } := by
  obtain ⟨rest, h1, h2⟩ := dispatch_svg_apply_eq m.tag os m.m_geometry m.m_style m.m_size
  refine ⟨rest, h1, ?_⟩
  simp only [svg_manipulator.stream_insert, h2, ostream.flush, ostream.append, ostream.insert]

theorem svg_manipulator.stream_insert_plain {α : Type} [Streamable α] [BoxArith α]
    (os : ostream) (m : svg_manipulator α) (h : os.width = 0) :
    svg_manipulator.stream_insert os m
      = { text := os.text ++ dispatch.svg m.tag m.m_geometry m.m_style m.m_size,
          flushed := true, width := 0, fill := os.fill, left := os.left } := by
  obtain ⟨rest, h1, h2⟩ := svg_manipulator.stream_insert_eq os m
  rw [h2, h1, ostream.padded_of_width_zero os _ h, String.append_assoc]

/-- On a stream of field width 0 the text and the flushed flag after a write are those of
the write to the plain sink. -/
theorem svg_manipulator.stream_insert_sink {α : Type} [Streamable α] [BoxArith α]
    (os : ostream) (m : svg_manipulator α) (h : os.width = 0) :
    ({ text := (svg_manipulator.stream_insert os m).text,
       flushed := (svg_manipulator.stream_insert os m).flushed } : Sink)
      = svg_manipulator.insert { text := os.text, flushed := os.flushed } m := by
  rw [svg_manipulator.stream_insert_plain os m h]
  rfl

end ggl

/-! ## The discardable dialog -/

theorem QSettings.value_setValue (s : QSettings) (key : String) (v d : Int) :
    (s.setValue key v).value key d = v := by
  simp [QSettings.value, QSettings.setValue, List.lookup]

theorem AppState.Sets_withSets (app : AppState) (s : QSettings) : (app.withSets s).Sets = s := by
  unfold AppState.withSets AppState.Sets
  cases h : app.g_Merk_Portable <;> simp [h]

theorem MDiscardableDialog.checks_decided (d : MDiscardableDialog)
    (h : d.DiscardableRole ≠ -1) : ∀ (runs : List DialogRun) (app : AppState),
    ∀ x ∈ d.checks app runs, x = (d.DiscardableRole, false) := by
  intro runs
  induction runs with
  | nil => intro app x hx; simp [MDiscardableDialog.checks] at hx
  | cons run runs ih =>
    intro app x hx
    have hc : d.check app run
        = { ret := d.DiscardableRole, dialog := d, app := app, shown := false } := by
      simp [MDiscardableDialog.check, h]
    simp only [MDiscardableDialog.checks, hc, List.mem_cons] at hx
    rcases hx with hx | hx
    · exact hx
    · exact ih app x hx

/-- C19: `MDiscardableDialog::check` with a role other than `-1` returns the role without
showing the dialog and changes neither the dialog nor the settings; with role `-1` it shows
the dialog and returns its result `r`, and stores `r` as the role and in the settings under
the title exactly when the box is ticked; after a check with the box ticked and `r` other
than `-1`, every later check returns `r` without showing the dialog. -/
theorem MDiscardableDialog.check_spec (d : MDiscardableDialog) (app : AppState)
    (run : DialogRun) :
    (d.DiscardableRole ≠ -1 →
      d.check app run = { ret := d.DiscardableRole, dialog := d, app := app, shown := false })
    ∧ (d.DiscardableRole = -1 →
      (d.check app run).shown = true ∧ (d.check app run).ret = run.tmpRet
      ∧ (run.dsaChecked = true →
          (d.check app run).dialog = { Title := d.Title, DiscardableRole := run.tmpRet }
          ∧ (d.check app run).app.Sets.value (discardable_key d.Title) (-1) = run.tmpRet
          ∧ (MDiscardableDialog.create (d.check app run).app d.Title).DiscardableRole
              = run.tmpRet)
      ∧ (run.dsaChecked = false →
          (d.check app run).dialog = d ∧ (d.check app run).app = app))
    ∧ (d.DiscardableRole = -1 → run.dsaChecked = true → run.tmpRet ≠ -1 →
      ∀ (later : List DialogRun),
        ∀ x ∈ (d.check app run).dialog.checks (d.check app run).app later,
          x = (run.tmpRet, false)) := by
  refine ⟨?_, ?_, ?_⟩
  · intro h
    simp [MDiscardableDialog.check, h]
  · intro h
    refine ⟨?_, ?_, ?_, ?_⟩
    · cases hc : run.dsaChecked <;> simp [MDiscardableDialog.check, h, hc]
    · cases hc : run.dsaChecked <;> simp [MDiscardableDialog.check, h, hc]
    · intro hc
      simp [MDiscardableDialog.check, h, hc, MDiscardableDialog.create,
        AppState.Sets_withSets, QSettings.value_setValue]
    · intro hc
      simp [MDiscardableDialog.check, h, hc]
  · intro h hc hr later
    have hd : (d.check app run).dialog
        = { Title := d.Title, DiscardableRole := run.tmpRet } := by
      simp [MDiscardableDialog.check, h, hc]
    rw [hd]
    exact MDiscardableDialog.checks_decided _ hr later _

/-- A dialog titled `Quit` with no stored role: the user answers 1 and ticks the box; the
role and the setting become 1 and two later checks return 1 without showing the dialog. -/
theorem MDiscardableDialog.check_spec_witness :
    (({ Title := "Quit", DiscardableRole := -1 } : MDiscardableDialog).check
        { g_Merk_Portable := false, native_settings := [], ini_settings := [] }
        { tmpRet := 1, dsaChecked := true })
      = { ret := 1, dialog := { Title := "Quit", DiscardableRole := 1 },
          app := { g_Merk_Portable := false,
                   native_settings := [("DiscardableDialogs/Quit", 1)], ini_settings := [] },
          shown := true }
    ∧ ((({ Title := "Quit", DiscardableRole := -1 } : MDiscardableDialog).check
          { g_Merk_Portable := false, native_settings := [], ini_settings := [] }
          { tmpRet := 1, dsaChecked := true }).dialog.checks
        (({ Title := "Quit", DiscardableRole := -1 } : MDiscardableDialog).check
          { g_Merk_Portable := false, native_settings := [], ini_settings := [] }
          { tmpRet := 1, dsaChecked := true }).app
        [{ tmpRet := 0, dsaChecked := false }, { tmpRet := 7, dsaChecked := true }]).all
        (fun x => decide (x = (1, false))) = true :=
  ⟨by decide,
    List.all_eq_true.2 (fun x hx => decide_eq_true
      ((MDiscardableDialog.check_spec { Title := "Quit", DiscardableRole := -1 }
        { g_Merk_Portable := false, native_settings := [], ini_settings := [] }
        { tmpRet := 1, dsaChecked := true }).2.2 rfl rfl (by decide) _ x hx))⟩
